import Mathlib

/-!
# Icon container to PNG set: the resize and derivation pipeline

A shallow embedding of `pkg/icons/icns-to-png.go`. Go slices are lists (the nil
slice is the empty list), Go `int` sizes are integers, the `error` value is an
optional message, and the two values a Go function returns are kept side by side.
The external collaborators (temp directory, `iconutil`, directory listing, the
pure decoder, image load, resize and save) are fields of an environment record;
the scheduling freedom of the worker pool is an explicit oracle.
-/

namespace Icons

/-- The Go `error` value; `errors.WithStack` only attaches a stack trace and is
modelled as the identity on the message. -/
abbrev Error := String

/-- The Go struct `Icns2PngMapping`. -/
structure Icns2PngMapping where
  Id : String
  Size : Int
deriving DecidableEq, Repr

/-- The Go struct `IconInfo`, with its fields `File` and `Size` as this file uses them. -/
structure IconInfo where
  File : String
  Size : Int
deriving DecidableEq, Repr

/-- Modelled from the spec: the constant `ICNS_256` is declared outside this file; the
catalog tags every size with a format-specific identifier, which no function here reads. -/
def ICNS_256 : String := "ic08"

/-- Modelled from the spec: the constant `ICNS_512` is declared outside this file; the
catalog tags every size with a format-specific identifier, which no function here reads. -/
def ICNS_512 : String := "ic09"

/-- The package variable `icnsTypeToSize`. -/
def icnsTypeToSize : List Icns2PngMapping :=
  [⟨"is32", 16⟩, ⟨"il32", 32⟩, ⟨"ih32", 48⟩, ⟨"icp6", 64⟩, ⟨"it32", 128⟩,
   ⟨ICNS_256, 256⟩, ⟨ICNS_512, 512⟩]

/-- Decimal digits of a natural number, most significant first; `fuel` bounds the
number of digits. -/
def decimalDigits : Nat → Nat → List Char → List Char
  | 0, _, acc => acc
  | fuel + 1, n, acc =>
    let acc1 := Char.ofNat (48 + n % 10) :: acc
    if n / 10 = 0 then acc1 else decimalDigits fuel (n / 10) acc1

/-- The text the verb `%d` prints for an integer. -/
def formatInt (i : Int) : List Char :=
  if i < 0 then '-' :: decimalDigits (i.natAbs + 1) i.natAbs []
  else decimalDigits (i.natAbs + 1) i.natAbs []

/-- The walk of `fmt.Sprintf` over the format, for the verb `%d` and the literal `%%`,
the only ones in the formats of this file; a `%d` without an operand prints
`%!d(MISSING)`. -/
def sprintfChars : List Char → List Int → List Char
  | [], _ => []
  | '%' :: 'd' :: cs, a :: rest => formatInt a ++ sprintfChars cs rest
  | '%' :: 'd' :: cs, [] => "%!d(MISSING)".data ++ sprintfChars cs []
  | '%' :: '%' :: cs, args => '%' :: sprintfChars cs args
  | c :: cs, args => c :: sprintfChars cs args

/-- The call `fmt.Sprintf(format, a, b)` with two integer operands. -/
def Sprintf (format : String) (a b : Int) : String :=
  String.mk (sprintfChars format.data [a, b])

/-- The call `filepath.Join(dir, name)` for a clean, non-empty directory path and a
plain file name. -/
def filepathJoin (dir name : String) : String :=
  dir ++ "/" ++ name

/-- The Go function `hasSize`. -/
def hasSize : List IconInfo → Int → Bool
  | [], _ => false
  | info :: list, size => if info.Size = size then true else hasSize list size

/-- The Go function `contains`. -/
def contains : List String → String → Bool
  | [], _ => false
  | fileName :: files, name => if fileName = name then true else contains files name

/-- The Go function `sortBySize`: `sort.Slice` with the comparison `list[i].Size < list[j].Size`.
The library promises an ordering by the comparison and nothing about descriptors of equal
size; the embedding sorts by insertion. -/
def sortBySize (list : List IconInfo) : List IconInfo :=
  list.insertionSort (fun a b => a.Size ≤ b.Size)

/-- The scheduling freedom of the worker pool. -/
structure Sched where
  /-- Whether, when unit `i` is about to be launched, a failure of an earlier unit has
  already been observed by the initiating flow. -/
  observed : Nat → Bool
  /-- Which of the failed units is the first one observed. -/
  pick : Nat

/-- The first observed failure among the failures of the launched units. -/
def firstObserved (sched : Sched) (failures : List Error) : Option Error :=
  failures[sched.pick % failures.length]?

/-- The scheduling loop of `MapAsync` with `todo` indices left. -/
def MapAsyncLoop {σ : Type} (sched : Sched) (taskCount : Nat)
    (taskProducer : Nat → σ → σ × Except Error (Option (Unit → Option Error))) :
    Nat → σ → List Error → σ × Option Error
  | 0, st, failures => (st, firstObserved sched failures)
  | todo + 1, st, failures =>
    let taskIndex := taskCount - (todo + 1)
    if failures ≠ [] ∧ sched.observed taskIndex = true then
      (st, firstObserved sched failures)
    else
      match taskProducer taskIndex st with
      | (st1, Except.error err) => (st1, some err)
      | (st1, Except.ok none) => MapAsyncLoop sched taskCount taskProducer todo st1 failures
      | (st1, Except.ok (some task)) =>
        match task () with
        | none => MapAsyncLoop sched taskCount taskProducer todo st1 failures
        | some err =>
          MapAsyncLoop sched taskCount taskProducer todo st1 (failures ++ [err])

/-- Modelled from the spec: `util.MapAsync` lives outside this file. For each index in
order the producer runs in the initiating flow; a producer error ends the call with that
error; a nil task is a skip (no unit, no error); any other task is scheduled as a unit of
work. The call blocks until all scheduled units finish or one fails, reports the first
observed failure, and on a failure stops launching new units. The producer mutates state
captured by its closure, passed explicitly here. -/
def MapAsync {σ : Type} (sched : Sched) (taskCount : Nat)
    (taskProducer : Nat → σ → σ × Except Error (Option (Unit → Option Error)))
    (st : σ) : σ × Option Error :=
  MapAsyncLoop sched taskCount taskProducer taskCount st []

/-- The external collaborators of one call. -/
structure Env where
  /-- The call `util.TempDir("", ".iconset")`. -/
  TempDir : Except Error String
  /-- The test `runtime.GOOS == "darwin" && os.Getenv("FORCE_ICNS2PNG") == ""`. -/
  native : Bool
  /-- The error of `exec.Command("iconutil", ...).CombinedOutput()`, by temp
  directory and input file. -/
  iconutil : String → String → Option Error
  /-- The call `fs.ReadDirContent(tempDir)`. -/
  ReadDirContent : String → Except Error (List String)
  /-- The call `ConvertIcnsToPngUsingOpenJpeg(inFile, tempDir)`. -/
  ConvertIcnsToPngUsingOpenJpeg : String → String → Except Error (List IconInfo)
  /-- The error of `LoadImage(inFile)`, if any. -/
  LoadImage : String → Option Error
  /-- The error of `SaveImage(imaging.Resize(originalImage, size, size, imaging.Lanczos),
  outFilePath)`, if any, by size and output path. -/
  resizeAndSave : Int → String → Option Error
  /-- The scheduling of the worker pool. -/
  sched : Sched

/-- The task producer of `multiResizeImage`, the closure handed to `util.MapAsync`; the
state is the slice behind the pointer `result`. `MapAsync` passes only indices below
`len(sizeList)`, so the arm for an index out of range is never taken. -/
def resizeTaskProducer (env : Env) (outFileNameFormat : String) (sizeList : List Int)
    (maxSize : Int) (taskIndex : Nat) (result : List IconInfo) :
    List IconInfo × Except Error (Option (Unit → Option Error)) :=
  match sizeList[taskIndex]? with
  | none => (result, Except.error "index out of range")
  | some size =>
    if size > maxSize then (result, Except.ok none)
    else
      let outFilePath := Sprintf outFileNameFormat size size
      (result ++ [⟨outFilePath, size⟩],
        Except.ok (some (fun _ => env.resizeAndSave size outFilePath)))

/-- The Go function `multiResizeImage`; returns the slice behind `result` as the call
leaves it, and the error. -/
def multiResizeImage (env : Env) (inFile outFileNameFormat : String)
    (result : List IconInfo) (sizeList : List Int) (maxSize : Int) :
    List IconInfo × Option Error :=
  let imageCount := sizeList.length
  if imageCount = 0 then (result, none)
  else
    match env.LoadImage inFile with
    | some err => (result, some err)
    | none =>
      MapAsync env.sched imageCount
        (resizeTaskProducer env outFileNameFormat sizeList maxSize) result

/-- The local variables of `ConvertIcnsToPng` that the call of `multiResizeImage` reads. -/
structure Selection where
  maxIconPath : String
  result : List IconInfo
  sizeList : List Int
  maxSize : Int
deriving DecidableEq, Repr

/-- One round of the loop over `icnsTypeToSize` on the `iconutil` path. -/
def nativeStep (tempDir : String) (iconFileNames : List String) (st : Selection)
    (item : Icns2PngMapping) : Selection :=
  let fileName := Sprintf "icon_%dx%d.png" item.Size item.Size
  if contains iconFileNames fileName = true then
    let maxIconPath := filepathJoin tempDir fileName
    { maxIconPath := maxIconPath
      result := st.result ++ [⟨maxIconPath, item.Size⟩]
      sizeList := st.sizeList
      maxSize := item.Size }
  else
    { st with sizeList := st.sizeList ++ [item.Size] }

/-- One round of the loop over `icnsTypeToSize` on the decoder path. -/
def fallbackStep (result : List IconInfo) (sizeList : List Int) (item : Icns2PngMapping) :
    List Int :=
  if hasSize result item.Size = false then sizeList ++ [item.Size] else sizeList

/-- How far `ConvertIcnsToPng` gets before it calls `multiResizeImage`. -/
inductive Stage where
  /-- It returned `nil` and this error. -/
  | failed (err : Error)
  /-- It stopped with a run-time panic. -/
  | panicked
  /-- It reached the call with these variables. -/
  | selected (sel : Selection)
deriving DecidableEq, Repr

/-- The body of `ConvertIcnsToPng` between the temp directory and the call of
`multiResizeImage`: the two extraction branches. -/
def selection (env : Env) (inFile tempDir : String) : Stage :=
  let sizeList : List Int := [24, 96]
  if env.native = true then
    match env.iconutil tempDir inFile with
    | some err => Stage.failed err
    | none =>
      match env.ReadDirContent tempDir with
      | Except.error err => Stage.failed err
      | Except.ok iconFileNames =>
        Stage.selected (icnsTypeToSize.foldl (nativeStep tempDir iconFileNames)
          { maxIconPath := "", result := [], sizeList := sizeList, maxSize := 0 })
  else
    match env.ConvertIcnsToPngUsingOpenJpeg inFile tempDir with
    | Except.error err => Stage.failed err
    | Except.ok decoded =>
      let result := sortBySize decoded
      let sizeList := icnsTypeToSize.foldl (fallbackStep result) sizeList
      match result.getLast? with
      | none => Stage.panicked
      | some maxIconInfo =>
        Stage.selected
          { maxIconPath := maxIconInfo.File
            result := result
            sizeList := sizeList
            maxSize := maxIconInfo.Size }

/-- What a call of `ConvertIcnsToPng` does. -/
inductive Outcome where
  /-- It returned this list (`[]` is `nil`) and this error (`none` is `nil`). -/
  | returned (list : List IconInfo) (err : Option Error)
  /-- It stopped with a run-time panic. -/
  | panicked
deriving DecidableEq, Repr

/-- The Go function `ConvertIcnsToPng`. -/
def ConvertIcnsToPng (env : Env) (inFile : String) : Outcome :=
  match env.TempDir with
  | Except.error err => Outcome.returned [] (some err)
  | Except.ok tempDir =>
    let outFileTemplate := filepathJoin tempDir "icon_%dx%d.png"
    match selection env inFile tempDir with
    | Stage.failed err => Outcome.returned [] (some err)
    | Stage.panicked => Outcome.panicked
    | Stage.selected sel =>
      match multiResizeImage env sel.maxIconPath outFileTemplate sel.result sel.sizeList
          sel.maxSize with
      | (_, some err) => Outcome.returned [] (some err)
      | (result, none) => Outcome.returned (sortBySize result) none

/-- An environment in which every collaborator succeeds: the decoder path with the given
decoded descriptors. -/
def fallbackEnv (decoded : List IconInfo) : Env where
  TempDir := Except.ok "/tmp/t.iconset"
  native := false
  iconutil := fun _ _ => none
  ReadDirContent := fun _ => Except.ok []
  ConvertIcnsToPngUsingOpenJpeg := fun _ _ => Except.ok decoded
  LoadImage := fun _ => none
  resizeAndSave := fun _ _ => none
  sched := ⟨fun _ => false, 0⟩

/-- An environment in which every collaborator succeeds: the `iconutil` path with the given
directory listing. -/
def nativeEnv (iconFileNames : List String) : Env where
  TempDir := Except.ok "/tmp/t.iconset"
  native := true
  iconutil := fun _ _ => none
  ReadDirContent := fun _ => Except.ok iconFileNames
  ConvertIcnsToPngUsingOpenJpeg := fun _ _ => Except.ok []
  LoadImage := fun _ => none
  resizeAndSave := fun _ _ => none
  sched := ⟨fun _ => false, 0⟩

/-- The sizes of the catalog `icnsTypeToSize`, in its order. -/
def catalogSizes : List Int := icnsTypeToSize.map Icns2PngMapping.Size

/-- The descriptors `multiResizeImage` registers when its producer runs for every target
of `sizes`: one for each target that does not exceed `maxSize`, in the order of the targets. -/
def registered (outFileNameFormat : String) (maxSize : Int) (sizes : List Int) :
    List IconInfo :=
  (sizes.filter (fun s => decide (s ≤ maxSize))).map
    (fun s => ⟨Sprintf outFileNameFormat s s, s⟩)

/-- Whether the directory listing holds the file `icon_SxS.png` of size `s`: the test of
the loop on the `iconutil` path. -/
def presentSize (iconFileNames : List String) (s : Int) : Bool :=
  contains iconFileNames (Sprintf "icon_%dx%d.png" s s)

/-- The descriptor the loop on the `iconutil` path appends for a catalog entry it finds. -/
def nativeInfo (tempDir : String) (item : Icns2PngMapping) : IconInfo :=
  ⟨filepathJoin tempDir (Sprintf "icon_%dx%d.png" item.Size item.Size), item.Size⟩

/-- The decoder path where the resize to 96 pixels cannot be saved. -/
def failingEnv : Env where
  TempDir := Except.ok "/tmp/t.iconset"
  native := false
  iconutil := fun _ _ => none
  ReadDirContent := fun _ => Except.ok []
  ConvertIcnsToPngUsingOpenJpeg := fun _ _ => Except.ok [⟨"/tmp/t.iconset/ic09.png", 512⟩]
  LoadImage := fun _ => none
  resizeAndSave := fun size _ => if size = 96 then some "no space left on device" else none
  sched := ⟨fun _ => true, 0⟩

/-- The variables at the call of `multiResizeImage` when the decoder yields the 512 pixel
image alone. -/
def only512 : Selection where
  maxIconPath := "/tmp/t.iconset/ic09.png"
  result := [⟨"/tmp/t.iconset/ic09.png", 512⟩]
  sizeList := [24, 96, 16, 32, 48, 64, 128, 256]
  maxSize := 512

/-- The variables at the call of `multiResizeImage` when the decoder yields a 1024 pixel
image, which the catalog does not list, and the 16 pixel image. -/
def with1024 : Selection where
  maxIconPath := "/tmp/t.iconset/big.png"
  result := [⟨"/tmp/t.iconset/ic04.png", 16⟩, ⟨"/tmp/t.iconset/big.png", 1024⟩]
  sizeList := [24, 96, 32, 48, 64, 128, 256, 512]
  maxSize := 1024

/-- The list returned when the decoder yields the 512 pixel image alone. -/
def only512List : List IconInfo :=
  [⟨"/tmp/t.iconset/icon_16x16.png", 16⟩, ⟨"/tmp/t.iconset/icon_24x24.png", 24⟩,
   ⟨"/tmp/t.iconset/icon_32x32.png", 32⟩, ⟨"/tmp/t.iconset/icon_48x48.png", 48⟩,
   ⟨"/tmp/t.iconset/icon_64x64.png", 64⟩, ⟨"/tmp/t.iconset/icon_96x96.png", 96⟩,
   ⟨"/tmp/t.iconset/icon_128x128.png", 128⟩, ⟨"/tmp/t.iconset/icon_256x256.png", 256⟩,
   ⟨"/tmp/t.iconset/ic09.png", 512⟩]

/-- The variables at the call of `multiResizeImage` when the directory listing holds the
16 and the 128 pixel files. -/
def found16and128 : Selection where
  maxIconPath := "/tmp/t.iconset/icon_128x128.png"
  result := [⟨"/tmp/t.iconset/icon_16x16.png", 16⟩, ⟨"/tmp/t.iconset/icon_128x128.png", 128⟩]
  sizeList := [24, 96, 32, 48, 64, 256, 512]
  maxSize := 128

/-- The list returned when the directory listing holds the 16 and the 128 pixel files. -/
def found16and128List : List IconInfo :=
  [⟨"/tmp/t.iconset/icon_16x16.png", 16⟩, ⟨"/tmp/t.iconset/icon_24x24.png", 24⟩,
   ⟨"/tmp/t.iconset/icon_32x32.png", 32⟩, ⟨"/tmp/t.iconset/icon_48x48.png", 48⟩,
   ⟨"/tmp/t.iconset/icon_64x64.png", 64⟩, ⟨"/tmp/t.iconset/icon_96x96.png", 96⟩,
   ⟨"/tmp/t.iconset/icon_128x128.png", 128⟩]

/-- A decoder result with pairwise distinct sizes, one of them the auxiliary size 24. -/
def decoded24and512 : List IconInfo :=
  [⟨"/tmp/t.iconset/aux24.png", 24⟩, ⟨"/tmp/t.iconset/ic09.png", 512⟩]

/-- The variables at the call of `multiResizeImage` for the decoder result
`decoded24and512`. -/
def selected24and512 : Selection where
  maxIconPath := "/tmp/t.iconset/ic09.png"
  result := [⟨"/tmp/t.iconset/aux24.png", 24⟩, ⟨"/tmp/t.iconset/ic09.png", 512⟩]
  sizeList := [24, 96, 16, 32, 48, 64, 128, 256]
  maxSize := 512

/-- The list returned for the decoder result `decoded24and512`. -/
def returned24and512 : List IconInfo :=
  [⟨"/tmp/t.iconset/icon_16x16.png", 16⟩, ⟨"/tmp/t.iconset/aux24.png", 24⟩,
   ⟨"/tmp/t.iconset/icon_24x24.png", 24⟩, ⟨"/tmp/t.iconset/icon_32x32.png", 32⟩,
   ⟨"/tmp/t.iconset/icon_48x48.png", 48⟩, ⟨"/tmp/t.iconset/icon_64x64.png", 64⟩,
   ⟨"/tmp/t.iconset/icon_96x96.png", 96⟩, ⟨"/tmp/t.iconset/icon_128x128.png", 128⟩,
   ⟨"/tmp/t.iconset/icon_256x256.png", 256⟩, ⟨"/tmp/t.iconset/ic09.png", 512⟩]

/-! ## Membership tests -/

theorem hasSize_iff (list : List IconInfo) (size : Int) :
    hasSize list size = true ↔ size ∈ list.map IconInfo.Size := by
  induction list with
  | nil => simp [hasSize]
  | cons info list ih =>
    by_cases h : info.Size = size
    · simp [hasSize, h]
    · have h2 : ¬ size = info.Size := fun e => h e.symm
      simp [hasSize, h, h2, ih]

theorem contains_iff (files : List String) (name : String) :
    contains files name = true ↔ name ∈ files := by
  induction files with
  | nil => simp [contains]
  | cons fileName files ih =>
    by_cases h : fileName = name
    · simp [contains, h]
    · have h2 : ¬ name = fileName := fun e => h e.symm
      simp [contains, h, h2, ih]

theorem hasSize_perm {l1 l2 : List IconInfo} (h : l1.Perm l2) (size : Int) :
    hasSize l1 size = hasSize l2 size := by
  rw [Bool.eq_iff_iff, hasSize_iff, hasSize_iff]
  exact (h.map IconInfo.Size).mem_iff

theorem contains_perm {l1 l2 : List String} (h : l1.Perm l2) (name : String) :
    contains l1 name = contains l2 name := by
  rw [Bool.eq_iff_iff, contains_iff, contains_iff]
  exact h.mem_iff

/-! ## Sorting -/

theorem sortBySize_perm (list : List IconInfo) : (sortBySize list).Perm list :=
  List.perm_insertionSort _ list

theorem sortBySize_sorted (list : List IconInfo) :
    (sortBySize list).Pairwise (fun a b => a.Size ≤ b.Size) := by
  haveI : IsTotal IconInfo (fun a b => a.Size ≤ b.Size) :=
    ⟨fun a b => le_total a.Size b.Size⟩
  haveI : IsTrans IconInfo (fun a b => a.Size ≤ b.Size) :=
    ⟨fun _ _ _ h1 h2 => le_trans h1 h2⟩
  exact List.sorted_insertionSort (fun a b : IconInfo => a.Size ≤ b.Size) list

theorem getLast_is_max {l : List IconInfo} (hs : l.Pairwise (fun a b => a.Size ≤ b.Size))
    {m : IconInfo} (hm : l.getLast? = some m) : ∀ d ∈ l, d.Size ≤ m.Size := by
  induction l with
  | nil => simp
  | cons a l ih =>
    intro d hd
    rw [List.pairwise_cons] at hs
    cases l with
    | nil =>
      simp at hm hd
      subst hm; subst hd; exact le_refl _
    | cons b l =>
      have hm2 : (b :: l).getLast? = some m := by
        simpa [List.getLast?_cons_cons] using hm
      have hmem : m ∈ b :: l := List.mem_of_getLast?_eq_some hm2
      rcases List.mem_cons.1 hd with h | h
      · subst h; exact hs.1 m hmem
      · exact ih hs.2 hm2 d h

/-! ## The scheduling loop -/

theorem firstObserved_some (sched : Sched) {failures : List Error} (h : failures ≠ []) :
    ∃ e, firstObserved sched failures = some e := by
  unfold firstObserved
  have hl : 0 < failures.length := List.length_pos.2 h
  have hlt : sched.pick % failures.length < failures.length := Nat.mod_lt _ hl
  exact ⟨failures[sched.pick % failures.length], List.getElem?_eq_getElem hlt⟩

theorem MapAsyncLoop_failures {σ : Type} (sched : Sched) (taskCount : Nat)
    (taskProducer : Nat → σ → σ × Except Error (Option (Unit → Option Error))) :
    ∀ (todo : Nat) (st : σ) (failures : List Error), failures ≠ [] →
      ∃ e, (MapAsyncLoop sched taskCount taskProducer todo st failures).2 = some e := by
  intro todo
  induction todo with
  | zero =>
    intro st failures h
    simpa [MapAsyncLoop] using firstObserved_some sched h
  | succ todo ih =>
    intro st failures h
    simp only [MapAsyncLoop]
    split
    · exact firstObserved_some sched h
    · split
      · exact ⟨_, rfl⟩
      · exact ih _ _ h
      · split
        · exact ih _ _ h
        · exact ih _ _ (by simp)

theorem resizeTaskProducer_at (env : Env) (outFileNameFormat : String) (maxSize : Int)
    (pre rest : List Int) (s : Int) (r : List IconInfo) :
    resizeTaskProducer env outFileNameFormat (pre ++ s :: rest) maxSize
        ((pre ++ s :: rest).length - (rest.length + 1)) r
      = if s > maxSize then (r, Except.ok none)
        else (r ++ [⟨Sprintf outFileNameFormat s s, s⟩],
          Except.ok (some (fun _ => env.resizeAndSave s (Sprintf outFileNameFormat s s)))) := by
  have hidx : (pre ++ s :: rest).length - (rest.length + 1) = pre.length := by
    simp
  have hget : (pre ++ s :: rest)[pre.length]? = some s := by
    rw [List.getElem?_append_right (le_refl _)]
    simp
  rw [hidx]
  unfold resizeTaskProducer
  rw [hget]

theorem registered_cons_skip (outFileNameFormat : String) (maxSize s : Int) (rest : List Int)
    (h : s > maxSize) :
    registered outFileNameFormat maxSize (s :: rest)
      = registered outFileNameFormat maxSize rest := by
  have h2 : ¬ s ≤ maxSize := not_le.2 h
  simp [registered, h2]

theorem registered_cons_keep (outFileNameFormat : String) (maxSize s : Int) (rest : List Int)
    (h : ¬ s > maxSize) :
    registered outFileNameFormat maxSize (s :: rest)
      = ⟨Sprintf outFileNameFormat s s, s⟩ :: registered outFileNameFormat maxSize rest := by
  have h2 : s ≤ maxSize := not_lt.1 h
  simp [registered, h2]

theorem resizeLoop_step (env : Env) (outFileNameFormat : String) (maxSize : Int)
    (sizeList pre rest : List Int) (s : Int) (r : List IconInfo) (f : List Error)
    (hsl : sizeList = pre ++ s :: rest) :
    MapAsyncLoop env.sched sizeList.length
        (resizeTaskProducer env outFileNameFormat sizeList maxSize) (rest.length + 1) r f
      = if f ≠ [] ∧ env.sched.observed (sizeList.length - (rest.length + 1)) = true then
          (r, firstObserved env.sched f)
        else if s > maxSize then
          MapAsyncLoop env.sched sizeList.length
            (resizeTaskProducer env outFileNameFormat sizeList maxSize) rest.length r f
        else
          match env.resizeAndSave s (Sprintf outFileNameFormat s s) with
          | none =>
            MapAsyncLoop env.sched sizeList.length
              (resizeTaskProducer env outFileNameFormat sizeList maxSize) rest.length
              (r ++ [⟨Sprintf outFileNameFormat s s, s⟩]) f
          | some err =>
            MapAsyncLoop env.sched sizeList.length
              (resizeTaskProducer env outFileNameFormat sizeList maxSize) rest.length
              (r ++ [⟨Sprintf outFileNameFormat s s, s⟩]) (f ++ [err]) := by
  subst hsl
  simp only [MapAsyncLoop]
  rw [resizeTaskProducer_at]
  by_cases hc : f ≠ [] ∧ env.sched.observed ((pre ++ s :: rest).length - (rest.length + 1)) = true
  · rw [if_pos hc, if_pos hc]
  · rw [if_neg hc, if_neg hc]
    by_cases hs : s > maxSize
    · rw [if_pos hs, if_pos hs]
    · rw [if_neg hs, if_neg hs]

theorem resizeLoop_success (env : Env) (outFileNameFormat : String) (maxSize : Int)
    (sizeList : List Int) :
    ∀ (rest pre : List Int) (r : List IconInfo) (f : List Error), sizeList = pre ++ rest →
      (MapAsyncLoop env.sched sizeList.length
        (resizeTaskProducer env outFileNameFormat sizeList maxSize) rest.length r f).2 = none →
      (MapAsyncLoop env.sched sizeList.length
        (resizeTaskProducer env outFileNameFormat sizeList maxSize) rest.length r f).1
          = r ++ registered outFileNameFormat maxSize rest
        ∧ f = []
        ∧ ∀ s ∈ rest, s ≤ maxSize →
            env.resizeAndSave s (Sprintf outFileNameFormat s s) = none := by
  intro rest
  induction rest with
  | nil =>
    intro pre r f _ h
    simp only [List.length_nil, MapAsyncLoop] at h ⊢
    refine ⟨by simp [registered], ?_, by simp⟩
    by_contra hf
    obtain ⟨e, he⟩ := firstObserved_some env.sched hf
    rw [he] at h
    cases h
  | cons s rest ih =>
    intro pre r f hsl h
    rw [List.length_cons, resizeLoop_step env outFileNameFormat maxSize sizeList pre rest s r f hsl]
      at h ⊢
    have hsl2 : sizeList = (pre ++ [s]) ++ rest := by simp [hsl]
    by_cases hc : f ≠ [] ∧ env.sched.observed (sizeList.length - (rest.length + 1)) = true
    · rw [if_pos hc] at h
      obtain ⟨e, he⟩ := firstObserved_some env.sched hc.1
      simp only at h
      rw [he] at h
      cases h
    · rw [if_neg hc] at h ⊢
      by_cases hs : s > maxSize
      · rw [if_pos hs] at h ⊢
        obtain ⟨h1, h2, h3⟩ := ih (pre ++ [s]) r f hsl2 h
        refine ⟨?_, h2, ?_⟩
        · rw [h1, registered_cons_skip _ _ _ _ hs]
        · intro t ht hle
          rcases List.mem_cons.1 ht with e | hmem
          · subst e
            exact absurd hle (not_le.2 hs)
          · exact h3 t hmem hle
      · rw [if_neg hs] at h ⊢
        cases hrs : env.resizeAndSave s (Sprintf outFileNameFormat s s) with
        | none =>
          rw [hrs] at h
          simp only at h ⊢
          obtain ⟨h1, h2, h3⟩ := ih (pre ++ [s]) _ f hsl2 h
          refine ⟨?_, h2, ?_⟩
          · rw [h1, registered_cons_keep _ _ _ _ hs]
            simp
          · intro t ht hle
            rcases List.mem_cons.1 ht with e | hmem
            · subst e
              exact hrs
            · exact h3 t hmem hle
        | some err =>
          rw [hrs] at h
          simp only at h
          obtain ⟨e, he⟩ := MapAsyncLoop_failures env.sched sizeList.length
            (resizeTaskProducer env outFileNameFormat sizeList maxSize) rest.length
            (r ++ [⟨Sprintf outFileNameFormat s s, s⟩]) (f ++ [err]) (by simp)
          rw [he] at h
          cases h

theorem resizeLoop_all_ok (env : Env) (outFileNameFormat : String) (maxSize : Int)
    (sizeList : List Int) :
    ∀ (rest pre : List Int) (r : List IconInfo), sizeList = pre ++ rest →
      (∀ s ∈ rest, s ≤ maxSize → env.resizeAndSave s (Sprintf outFileNameFormat s s) = none) →
      MapAsyncLoop env.sched sizeList.length
        (resizeTaskProducer env outFileNameFormat sizeList maxSize) rest.length r []
          = (r ++ registered outFileNameFormat maxSize rest, none) := by
  intro rest
  induction rest with
  | nil =>
    intro pre r _ _
    simp [MapAsyncLoop, registered, firstObserved]
  | cons s rest ih =>
    intro pre r hsl hok
    rw [List.length_cons, resizeLoop_step env outFileNameFormat maxSize sizeList pre rest s r [] hsl]
    have hsl2 : sizeList = (pre ++ [s]) ++ rest := by simp [hsl]
    have hok2 : ∀ t ∈ rest, t ≤ maxSize →
        env.resizeAndSave t (Sprintf outFileNameFormat t t) = none :=
      fun t ht => hok t (List.mem_cons_of_mem _ ht)
    rw [if_neg (by simp)]
    by_cases hs : s > maxSize
    · rw [if_pos hs, ih (pre ++ [s]) r hsl2 hok2, registered_cons_skip _ _ _ _ hs]
    · rw [if_neg hs, hok s (List.mem_cons_self _ _) (not_lt.1 hs)]
      simp only
      rw [ih (pre ++ [s]) _ hsl2 hok2, registered_cons_keep _ _ _ _ hs]
      simp

theorem resizeLoop_prefix (env : Env) (outFileNameFormat : String) (maxSize : Int)
    (sizeList : List Int) :
    ∀ (rest pre : List Int) (r : List IconInfo) (f : List Error), sizeList = pre ++ rest →
      ∃ k, (MapAsyncLoop env.sched sizeList.length
        (resizeTaskProducer env outFileNameFormat sizeList maxSize) rest.length r f).1
          = r ++ registered outFileNameFormat maxSize (rest.take k) := by
  intro rest
  induction rest with
  | nil =>
    intro pre r f _
    exact ⟨0, by simp [MapAsyncLoop, registered]⟩
  | cons s rest ih =>
    intro pre r f hsl
    rw [List.length_cons, resizeLoop_step env outFileNameFormat maxSize sizeList pre rest s r f hsl]
    have hsl2 : sizeList = (pre ++ [s]) ++ rest := by simp [hsl]
    by_cases hc : f ≠ [] ∧ env.sched.observed (sizeList.length - (rest.length + 1)) = true
    · rw [if_pos hc]
      exact ⟨0, by simp [registered]⟩
    · rw [if_neg hc]
      by_cases hs : s > maxSize
      · rw [if_pos hs]
        obtain ⟨k, hk⟩ := ih (pre ++ [s]) r f hsl2
        exact ⟨k + 1, by rw [hk, List.take_succ_cons, registered_cons_skip _ _ _ _ hs]⟩
      · rw [if_neg hs]
        cases hrs : env.resizeAndSave s (Sprintf outFileNameFormat s s) with
        | none =>
          simp only
          obtain ⟨k, hk⟩ := ih (pre ++ [s]) (r ++ [⟨Sprintf outFileNameFormat s s, s⟩]) f hsl2
          exact ⟨k + 1, by
            rw [hk, List.take_succ_cons, registered_cons_keep _ _ _ _ hs]; simp⟩
        | some err =>
          simp only
          obtain ⟨k, hk⟩ := ih (pre ++ [s]) (r ++ [⟨Sprintf outFileNameFormat s s, s⟩])
            (f ++ [err]) hsl2
          exact ⟨k + 1, by
            rw [hk, List.take_succ_cons, registered_cons_keep _ _ _ _ hs]; simp⟩

/-! ## The scheduler call -/

theorem multiResizeImage_success (env : Env) (inFile outFileNameFormat : String)
    (r : List IconInfo) (sizeList : List Int) (maxSize : Int)
    (h : (multiResizeImage env inFile outFileNameFormat r sizeList maxSize).2 = none) :
    (multiResizeImage env inFile outFileNameFormat r sizeList maxSize).1
        = r ++ registered outFileNameFormat maxSize sizeList
      ∧ ∀ s ∈ sizeList, s ≤ maxSize →
          env.resizeAndSave s (Sprintf outFileNameFormat s s) = none := by
  unfold multiResizeImage at h ⊢
  by_cases h0 : sizeList.length = 0
  · have hnil : sizeList = [] := List.length_eq_zero.1 h0
    subst hnil
    simp [registered]
  · simp only [h0, if_false] at h ⊢
    cases hl : env.LoadImage inFile with
    | some err =>
      rw [hl] at h
      simp at h
    | none =>
      rw [hl] at h
      simp only [MapAsync] at h ⊢
      obtain ⟨h1, _, h3⟩ := resizeLoop_success env outFileNameFormat maxSize sizeList
        sizeList [] r [] (by simp) h
      exact ⟨h1, h3⟩

theorem multiResizeImage_all_ok (env : Env) (inFile outFileNameFormat : String)
    (r : List IconInfo) (sizeList : List Int) (maxSize : Int)
    (hload : env.LoadImage inFile = none)
    (hok : ∀ s ∈ sizeList, s ≤ maxSize →
      env.resizeAndSave s (Sprintf outFileNameFormat s s) = none) :
    multiResizeImage env inFile outFileNameFormat r sizeList maxSize
      = (r ++ registered outFileNameFormat maxSize sizeList, none) := by
  unfold multiResizeImage
  by_cases h0 : sizeList.length = 0
  · have hnil : sizeList = [] := List.length_eq_zero.1 h0
    subst hnil
    simp [registered]
  · simp only [h0, if_false, hload, MapAsync]
    exact resizeLoop_all_ok env outFileNameFormat maxSize sizeList sizeList [] r (by simp) hok

theorem multiResizeImage_prefix (env : Env) (inFile outFileNameFormat : String)
    (r : List IconInfo) (sizeList : List Int) (maxSize : Int) :
    ∃ k, (multiResizeImage env inFile outFileNameFormat r sizeList maxSize).1
      = r ++ registered outFileNameFormat maxSize (sizeList.take k) := by
  unfold multiResizeImage
  by_cases h0 : sizeList.length = 0
  · exact ⟨0, by simp [h0, registered]⟩
  · simp only [h0, if_false]
    cases hl : env.LoadImage inFile with
    | some err => exact ⟨0, by simp [registered]⟩
    | none =>
      simp only [MapAsync]
      exact resizeLoop_prefix env outFileNameFormat maxSize sizeList sizeList [] r [] (by simp)

theorem mem_registered {outFileNameFormat : String} {maxSize : Int} {sizes : List Int}
    {d : IconInfo} (h : d ∈ registered outFileNameFormat maxSize sizes) :
    d.Size ≤ maxSize ∧ d.Size ∈ sizes ∧ d.File = Sprintf outFileNameFormat d.Size d.Size := by
  unfold registered at h
  obtain ⟨s, hs, rfl⟩ := List.mem_map.1 h
  obtain ⟨hmem, hle⟩ := List.mem_filter.1 hs
  exact ⟨by simpa using hle, hmem, rfl⟩

theorem registered_sizes (outFileNameFormat : String) (maxSize : Int) (sizes : List Int) :
    (registered outFileNameFormat maxSize sizes).map IconInfo.Size
      = sizes.filter (fun s => decide (s ≤ maxSize)) := by
  unfold registered
  rw [List.map_map]
  have hid : (IconInfo.Size ∘ fun s : Int => (⟨Sprintf outFileNameFormat s s, s⟩ : IconInfo))
      = id := by
    funext s
    rfl
  rw [hid, List.map_id]

/-! ## The two extraction branches -/

theorem nativeFold_lists (tempDir : String) (iconFileNames : List String) :
    ∀ (items : List Icns2PngMapping) (st : Selection),
      (items.foldl (nativeStep tempDir iconFileNames) st).result
          = st.result ++ (items.filter
              (fun i => presentSize iconFileNames i.Size)).map (nativeInfo tempDir)
        ∧ (items.foldl (nativeStep tempDir iconFileNames) st).sizeList
          = st.sizeList ++ (items.filter
              (fun i => !presentSize iconFileNames i.Size)).map Icns2PngMapping.Size := by
  intro items
  induction items with
  | nil => intro st; simp
  | cons item items ih =>
    intro st
    rw [List.foldl_cons]
    obtain ⟨h1, h2⟩ := ih (nativeStep tempDir iconFileNames st item)
    rw [h1, h2]
    by_cases hp : presentSize iconFileNames item.Size = true
    · have hc : contains iconFileNames (Sprintf "icon_%dx%d.png" item.Size item.Size) = true := hp
      simp [nativeStep, hc, hp, nativeInfo]
    · have hc : ¬ contains iconFileNames (Sprintf "icon_%dx%d.png" item.Size item.Size) = true :=
        hp
      simp [nativeStep, hc, hp]

theorem nativeFold_last (tempDir : String) (iconFileNames : List String) :
    ∀ (items : List Icns2PngMapping) (st : Selection),
      (∀ d, st.result.getLast? = some d → st.maxIconPath = d.File ∧ st.maxSize = d.Size) →
      ∀ d, (items.foldl (nativeStep tempDir iconFileNames) st).result.getLast? = some d →
        (items.foldl (nativeStep tempDir iconFileNames) st).maxIconPath = d.File
          ∧ (items.foldl (nativeStep tempDir iconFileNames) st).maxSize = d.Size := by
  intro items
  induction items with
  | nil => intro st h; simpa using h
  | cons item items ih =>
    intro st h
    rw [List.foldl_cons]
    apply ih
    intro d hd
    by_cases hc : contains iconFileNames (Sprintf "icon_%dx%d.png" item.Size item.Size) = true
    · simp [nativeStep, hc] at hd ⊢
      subst hd
      exact ⟨rfl, rfl⟩
    · simp [nativeStep, hc] at hd ⊢
      exact h d hd

theorem catalogSizes_eq : catalogSizes = [16, 32, 48, 64, 128, 256, 512] := by
  decide

theorem catalogSizes_sorted : catalogSizes.Pairwise (fun a b => a < b) := by
  rw [catalogSizes_eq]
  decide

theorem nativeInfo_sizes (tempDir : String) (items : List Icns2PngMapping) :
    (items.map (nativeInfo tempDir)).map IconInfo.Size = items.map Icns2PngMapping.Size := by
  rw [List.map_map]
  rfl

theorem fallbackFold (result : List IconInfo) :
    ∀ (items : List Icns2PngMapping) (sizeList : List Int),
      items.foldl (fallbackStep result) sizeList
        = sizeList ++ (items.filter
            (fun i => !hasSize result i.Size)).map Icns2PngMapping.Size := by
  intro items
  induction items with
  | nil => intro sizeList; simp
  | cons item items ih =>
    intro sizeList
    rw [List.foldl_cons, ih]
    cases hh : hasSize result item.Size <;> simp [fallbackStep, hh]

/-- What the call of `multiResizeImage` is handed, whichever branch ran. -/
theorem selection_facts (env : Env) (inFile tempDir : String) (sel : Selection)
    (h : selection env inFile tempDir = Stage.selected sel) :
    sel.result.Pairwise (fun a b => a.Size ≤ b.Size)
      ∧ (∀ d, sel.result.getLast? = some d →
          sel.maxIconPath = d.File ∧ sel.maxSize = d.Size)
      ∧ sel.sizeList = [24, 96] ++ catalogSizes.filter (fun s => !hasSize sel.result s)
      ∧ (env.native = true → (sel.result.map IconInfo.Size).Sublist catalogSizes)
      ∧ (env.native = false → ∃ decoded,
          env.ConvertIcnsToPngUsingOpenJpeg inFile tempDir = Except.ok decoded
            ∧ sel.result = sortBySize decoded ∧ decoded ≠ []) := by
  unfold selection at h
  cases hn : env.native with
  | true =>
    rw [hn] at h
    simp only [if_true] at h
    cases hi : env.iconutil tempDir inFile with
    | some err => rw [hi] at h; cases h
    | none =>
      rw [hi] at h
      cases hr : env.ReadDirContent tempDir with
      | error err => rw [hr] at h; cases h
      | ok iconFileNames =>
        rw [hr] at h
        simp only [Stage.selected.injEq] at h
        obtain ⟨h1, h2⟩ := nativeFold_lists tempDir iconFileNames icnsTypeToSize
          { maxIconPath := "", result := [], sizeList := [24, 96], maxSize := 0 }
        have h3 := nativeFold_last tempDir iconFileNames icnsTypeToSize
          { maxIconPath := "", result := [], sizeList := [24, 96], maxSize := 0 }
          (by intro d hd; simp at hd)
        rw [h] at h1 h2 h3
        simp only [List.nil_append] at h1
        have hsizes : sel.result.map IconInfo.Size
            = catalogSizes.filter (fun s => presentSize iconFileNames s) := by
          rw [h1, nativeInfo_sizes, catalogSizes, List.filter_map]
          rfl
        have hsub : (sel.result.map IconInfo.Size).Sublist catalogSizes := by
          rw [hsizes]
          exact List.filter_sublist _
        refine ⟨?_, h3, ?_, fun _ => hsub, fun hf => by cases hf⟩
        · have hp := List.Pairwise.sublist hsub catalogSizes_sorted
          rw [List.pairwise_map] at hp
          exact hp.imp (fun hab => le_of_lt hab)
        · rw [h2, catalogSizes, List.filter_map]
          congr 2
          apply List.filter_congr
          intro i hi
          have hmem : i.Size ∈ catalogSizes := List.mem_map_of_mem _ hi
          have hiff : hasSize sel.result i.Size = presentSize iconFileNames i.Size := by
            rw [Bool.eq_iff_iff, hasSize_iff, hsizes, List.mem_filter]
            simp [hmem]
          simp [hiff]
  | false =>
    rw [hn] at h
    simp only [Bool.false_eq_true, if_false] at h
    cases hd : env.ConvertIcnsToPngUsingOpenJpeg inFile tempDir with
    | error err => rw [hd] at h; cases h
    | ok decoded =>
      rw [hd] at h
      simp only at h
      cases hl : (sortBySize decoded).getLast? with
      | none => rw [hl] at h; cases h
      | some m =>
        rw [hl] at h
        simp only [Stage.selected.injEq] at h
        subst h
        refine ⟨sortBySize_sorted decoded, ?_, ?_, (fun hf => by cases hf), fun _ =>
          ⟨decoded, rfl, rfl, ?_⟩⟩
        · intro d hd2
          simp only at hd2
          rw [hl] at hd2
          cases hd2
          exact ⟨rfl, rfl⟩
        · simp only
          rw [fallbackFold, catalogSizes, List.filter_map]
          rfl
        · intro hnil
          subst hnil
          simp [sortBySize] at hl

/-! ## The whole call -/

theorem ConvertIcnsToPng_reached (env : Env) (inFile tempDir : String) (sel : Selection)
    (ht : env.TempDir = Except.ok tempDir)
    (hsel : selection env inFile tempDir = Stage.selected sel) :
    ConvertIcnsToPng env inFile
      = match multiResizeImage env sel.maxIconPath (filepathJoin tempDir "icon_%dx%d.png")
            sel.result sel.sizeList sel.maxSize with
        | (_, some err) => Outcome.returned [] (some err)
        | (result, none) => Outcome.returned (sortBySize result) none := by
  unfold ConvertIcnsToPng
  rw [ht]
  simp only
  rw [hsel]

theorem ConvertIcnsToPng_success (env : Env) (inFile : String) (list : List IconInfo)
    (h : ConvertIcnsToPng env inFile = Outcome.returned list none) :
    ∃ tempDir sel, env.TempDir = Except.ok tempDir
      ∧ selection env inFile tempDir = Stage.selected sel
      ∧ multiResizeImage env sel.maxIconPath (filepathJoin tempDir "icon_%dx%d.png")
            sel.result sel.sizeList sel.maxSize
          = (sel.result ++ registered (filepathJoin tempDir "icon_%dx%d.png") sel.maxSize
              sel.sizeList, none)
      ∧ list = sortBySize (sel.result ++ registered (filepathJoin tempDir "icon_%dx%d.png")
          sel.maxSize sel.sizeList) := by
  cases ht : env.TempDir with
  | error err =>
    unfold ConvertIcnsToPng at h
    rw [ht] at h
    simp at h
  | ok tempDir =>
    cases hsel : selection env inFile tempDir with
    | failed err =>
      unfold ConvertIcnsToPng at h
      rw [ht] at h
      simp only at h
      rw [hsel] at h
      simp at h
    | panicked =>
      unfold ConvertIcnsToPng at h
      rw [ht] at h
      simp only at h
      rw [hsel] at h
      simp at h
    | selected sel =>
      rw [ConvertIcnsToPng_reached env inFile tempDir sel ht hsel] at h
      refine ⟨tempDir, sel, rfl, hsel, ?_⟩
      cases hm : multiResizeImage env sel.maxIconPath (filepathJoin tempDir "icon_%dx%d.png")
          sel.result sel.sizeList sel.maxSize with
      | mk res err =>
        rw [hm] at h
        cases err with
        | some e => simp at h
        | none =>
          simp only [Outcome.returned.injEq, and_true] at h
          have h2 := (multiResizeImage_success env sel.maxIconPath
            (filepathJoin tempDir "icon_%dx%d.png") sel.result sel.sizeList sel.maxSize
            (by rw [hm])).1
          rw [hm] at h2
          simp only at h2
          subst h2
          exact ⟨rfl, h.symm⟩

theorem selection_sizeList_ne_nil (env : Env) (inFile tempDir : String) (sel : Selection)
    (hsel : selection env inFile tempDir = Stage.selected sel) : sel.sizeList ≠ [] := by
  rw [(selection_facts env inFile tempDir sel hsel).2.2.1]
  simp

theorem selection_result_le (env : Env) (inFile tempDir : String) (sel : Selection)
    (hsel : selection env inFile tempDir = Stage.selected sel) :
    ∀ d ∈ sel.result, d.Size ≤ sel.maxSize := by
  intro d hd
  obtain ⟨h1, h2, _⟩ := selection_facts env inFile tempDir sel hsel
  cases hl : sel.result.getLast? with
  | none =>
    have hnil : sel.result = [] := List.getLast?_eq_none_iff.1 hl
    rw [hnil] at hd
    cases hd
  | some m =>
    rw [(h2 m hl).2]
    exact getLast_is_max h1 hl d hd

theorem ConvertIcnsToPng_shape (env : Env) (inFile : String) (list : List IconInfo)
    (err : Option Error) (h : ConvertIcnsToPng env inFile = Outcome.returned list err) :
    err = none ∨ list = [] := by
  cases herr : err with
  | none => exact Or.inl rfl
  | some e =>
    right
    subst herr
    unfold ConvertIcnsToPng at h
    split at h
    · simp only [Outcome.returned.injEq] at h
      exact h.1.symm
    · simp only at h
      split at h
      · simp only [Outcome.returned.injEq] at h
        exact h.1.symm
      · cases h
      · split at h
        · simp only [Outcome.returned.injEq] at h
          exact h.1.symm
        · simp at h

theorem sortBySize_eq_of_perm {l1 l2 : List IconInfo} (h : l1.Perm l2)
    (hn : (l1.map IconInfo.Size).Nodup) : sortBySize l1 = sortBySize l2 := by
  haveI : IsAntisymm IconInfo (fun a b => a.Size < b.Size) :=
    ⟨fun _ _ h1 h2 => absurd h1 (not_lt.2 (le_of_lt h2))⟩
  have strict : ∀ l : List IconInfo, l.Perm l1 →
      (sortBySize l).Pairwise (fun a b => a.Size < b.Size) := by
    intro l hl
    have hp : (sortBySize l).Perm l1 := (sortBySize_perm l).trans hl
    have hnd : ((sortBySize l).map IconInfo.Size).Nodup :=
      ((hp.map IconInfo.Size).nodup_iff).2 hn
    have hne : (sortBySize l).Pairwise (fun a b => a.Size ≠ b.Size) :=
      List.pairwise_map.1 hnd
    exact ((sortBySize_sorted l).and hne).imp (fun hab => lt_of_le_of_ne hab.1 hab.2)
  have hperm : (sortBySize l1).Perm (sortBySize l2) :=
    ((sortBySize_perm l1).trans h).trans (sortBySize_perm l2).symm
  exact List.eq_of_perm_of_sorted hperm (strict l1 (List.Perm.refl _)) (strict l2 h.symm)

theorem ConvertIcnsToPng_success_at (env : Env) (inFile tempDir : String) (sel : Selection)
    (list : List IconInfo)
    (ht : env.TempDir = Except.ok tempDir)
    (hsel : selection env inFile tempDir = Stage.selected sel)
    (hrun : ConvertIcnsToPng env inFile = Outcome.returned list none) :
    list = sortBySize (sel.result ++ registered (filepathJoin tempDir "icon_%dx%d.png")
      sel.maxSize sel.sizeList) := by
  obtain ⟨tempDir2, sel2, ht2, hsel2, _, hlist⟩ := ConvertIcnsToPng_success env inFile list hrun
  rw [ht] at ht2
  cases ht2
  rw [hsel] at hsel2
  cases hsel2
  exact hlist

theorem returned_sizes_perm (env : Env) (inFile tempDir : String) (sel : Selection)
    (list : List IconInfo)
    (ht : env.TempDir = Except.ok tempDir)
    (hsel : selection env inFile tempDir = Stage.selected sel)
    (hrun : ConvertIcnsToPng env inFile = Outcome.returned list none) :
    (list.map IconInfo.Size).Perm
      (sel.result.map IconInfo.Size
        ++ sel.sizeList.filter (fun s => decide (s ≤ sel.maxSize))) := by
  rw [ConvertIcnsToPng_success_at env inFile tempDir sel list ht hsel hrun,
    ← registered_sizes (filepathJoin tempDir "icon_%dx%d.png"), ← List.map_append]
  exact (sortBySize_perm _).map IconInfo.Size

theorem selection_targets_mem (env : Env) (inFile tempDir : String) (sel : Selection)
    (hsel : selection env inFile tempDir = Stage.selected sel) (s : Int) :
    s ∈ sel.sizeList
      ↔ s = 24 ∨ s = 96 ∨ (s ∈ catalogSizes ∧ s ∉ sel.result.map IconInfo.Size) := by
  rw [(selection_facts env inFile tempDir sel hsel).2.2.1]
  simp only [List.mem_append, List.mem_cons, List.mem_filter, List.mem_singleton,
    List.not_mem_nil, or_false, Bool.not_eq_true', ← hasSize_iff, Bool.not_eq_true]
  tauto

theorem selection_targets_nodup (env : Env) (inFile tempDir : String) (sel : Selection)
    (hsel : selection env inFile tempDir = Stage.selected sel) : sel.sizeList.Nodup := by
  rw [(selection_facts env inFile tempDir sel hsel).2.2.1]
  have hsub : ([24, 96] ++ catalogSizes.filter (fun s => !hasSize sel.result s)).Sublist
      ([24, 96] ++ catalogSizes) :=
    List.Sublist.append (List.Sublist.refl _) (List.filter_sublist _)
  have hnd : ([24, 96] ++ catalogSizes).Nodup := by
    rw [catalogSizes_eq]
    decide
  exact hnd.sublist hsub

theorem merged_sizes_nodup (env : Env) (inFile tempDir : String) (sel : Selection)
    (hsel : selection env inFile tempDir = Stage.selected sel)
    (hR : (sel.result.map IconInfo.Size).Nodup)
    (h24 : (24 : Int) ∉ sel.result.map IconInfo.Size)
    (h96 : (96 : Int) ∉ sel.result.map IconInfo.Size) :
    (sel.result.map IconInfo.Size
      ++ sel.sizeList.filter (fun s => decide (s ≤ sel.maxSize))).Nodup := by
  refine List.Nodup.append hR ((selection_targets_nodup env inFile tempDir sel hsel).filter _) ?_
  intro a haR haT
  have hmem := (selection_targets_mem env inFile tempDir sel hsel a).1 (List.mem_filter.1 haT).1
  rcases hmem with h | h | h
  · exact h24 (h ▸ haR)
  · exact h96 (h ▸ haR)
  · exact h.2 haR

theorem catalogSizes_not_aux {s : Int} (hs : s ∈ catalogSizes) : s ≠ 24 ∧ s ≠ 96 := by
  rw [catalogSizes_eq] at hs
  simp only [List.mem_cons, List.mem_singleton, List.not_mem_nil, or_false] at hs
  omega

theorem mem_nine_iff (s : Int) :
    s ∈ [16, 24, 32, 48, 64, 96, 128, 256, 512] ↔ s = 24 ∨ s = 96 ∨ s ∈ catalogSizes := by
  rw [catalogSizes_eq]
  simp only [List.mem_cons, List.mem_singleton, List.not_mem_nil, or_false]
  constructor <;> intro h <;> omega

theorem nine_sorted :
    ([16, 24, 32, 48, 64, 96, 128, 256, 512] : List Int).Pairwise (fun a b => a < b) := by
  decide

/-! ## The claims -/

/-- C4: on every successful run the returned list is the merged collection, the extracted
descriptors followed by the descriptors `multiResizeImage` registered, rearranged by
`sortBySize`: it is non-decreasing by `Size` and a permutation of the merged collection. -/
theorem ConvertIcnsToPng_sorted_merge (env : Env) (inFile tempDir : String) (sel : Selection)
    (list : List IconInfo)
    (ht : env.TempDir = Except.ok tempDir)
    (hsel : selection env inFile tempDir = Stage.selected sel)
    (hrun : ConvertIcnsToPng env inFile = Outcome.returned list none) :
    (multiResizeImage env sel.maxIconPath (filepathJoin tempDir "icon_%dx%d.png")
        sel.result sel.sizeList sel.maxSize).1
        = sel.result ++ registered (filepathJoin tempDir "icon_%dx%d.png") sel.maxSize
            sel.sizeList
      ∧ list = sortBySize (sel.result ++ registered (filepathJoin tempDir "icon_%dx%d.png")
          sel.maxSize sel.sizeList)
      ∧ list.Pairwise (fun a b => a.Size ≤ b.Size)
      ∧ list.Perm (sel.result ++ registered (filepathJoin tempDir "icon_%dx%d.png")
          sel.maxSize sel.sizeList) := by
  obtain ⟨tempDir2, sel2, ht2, hsel2, hm, hlist⟩ := ConvertIcnsToPng_success env inFile list hrun
  rw [ht] at ht2
  cases ht2
  rw [hsel] at hsel2
  cases hsel2
  refine ⟨by rw [hm], hlist, ?_, ?_⟩
  · rw [hlist]
    exact sortBySize_sorted _
  · rw [hlist]
    exact sortBySize_perm _

/-- C4, on the decoder path with the 512 pixel image alone. -/
theorem ConvertIcnsToPng_sorted_merge_witness :
    (fallbackEnv [⟨"/tmp/t.iconset/ic09.png", 512⟩]).TempDir = Except.ok "/tmp/t.iconset"
      ∧ selection (fallbackEnv [⟨"/tmp/t.iconset/ic09.png", 512⟩]) "a.icns" "/tmp/t.iconset"
          = Stage.selected only512
      ∧ ConvertIcnsToPng (fallbackEnv [⟨"/tmp/t.iconset/ic09.png", 512⟩]) "a.icns"
          = Outcome.returned only512List none
      ∧ only512List.Pairwise (fun a b => a.Size ≤ b.Size)
      ∧ only512List.Perm (only512.result
          ++ registered (filepathJoin "/tmp/t.iconset" "icon_%dx%d.png") only512.maxSize
              only512.sizeList) :=
  ⟨rfl, by decide, by decide,
    (ConvertIcnsToPng_sorted_merge (fallbackEnv [⟨"/tmp/t.iconset/ic09.png", 512⟩]) "a.icns"
      "/tmp/t.iconset" only512 only512List rfl (by decide) (by decide)).2.2⟩

/-- C10: whenever the list of available descriptors, as it stands at the call of
`multiResizeImage`, is non-empty, `maxSize` is the greatest `Size` over all its descriptors,
catalog sizes or not, and `maxIconPath` is the `File` of a descriptor of that size, the last
one of the list. -/
theorem selection_source_is_max (env : Env) (inFile tempDir : String) (sel : Selection)
    (hsel : selection env inFile tempDir = Stage.selected sel)
    (hne : sel.result ≠ []) :
    (∀ d ∈ sel.result, d.Size ≤ sel.maxSize)
      ∧ ∃ d ∈ sel.result, sel.result.getLast? = some d
          ∧ d.Size = sel.maxSize ∧ d.File = sel.maxIconPath := by
  refine ⟨selection_result_le env inFile tempDir sel hsel, ?_⟩
  obtain ⟨_, h2, _⟩ := selection_facts env inFile tempDir sel hsel
  cases hl : sel.result.getLast? with
  | none => exact absurd (List.getLast?_eq_none_iff.1 hl) hne
  | some m =>
    exact ⟨m, List.mem_of_getLast?_eq_some hl, rfl, (h2 m hl).2.symm, (h2 m hl).1.symm⟩

/-- C10, on the decoder path with a 1024 pixel image the catalog does not list. -/
theorem selection_source_is_max_witness :
    selection (fallbackEnv [⟨"/tmp/t.iconset/big.png", 1024⟩, ⟨"/tmp/t.iconset/ic04.png", 16⟩])
        "a.icns" "/tmp/t.iconset" = Stage.selected with1024
      ∧ with1024.result ≠ []
      ∧ (∀ d ∈ with1024.result, d.Size ≤ with1024.maxSize)
      ∧ ∃ d ∈ with1024.result, with1024.result.getLast? = some d
          ∧ d.Size = with1024.maxSize ∧ d.File = with1024.maxIconPath :=
  ⟨by decide, by decide,
    selection_source_is_max
      (fallbackEnv [⟨"/tmp/t.iconset/big.png", 1024⟩, ⟨"/tmp/t.iconset/ic04.png", 16⟩])
      "a.icns" "/tmp/t.iconset" with1024 (by decide) (by decide)⟩

/-- C3: `multiResizeImage` registers descriptors only for targets that do not exceed
`maxSize`; the skipped targets raise no error, the call succeeds whenever the source loads
and the units of the targets within `maxSize` succeed; and no descriptor of the list
`ConvertIcnsToPng` returns is larger than the size of the chosen source. -/
theorem multiResizeImage_no_upsampling (env : Env) (icnsFile inFile outFileNameFormat : String)
    (result : List IconInfo) (sizeList : List Int) (maxSize : Int) :
    (∃ added, (multiResizeImage env inFile outFileNameFormat result sizeList maxSize).1
          = result ++ added
        ∧ ∀ d ∈ added, d.Size ≤ maxSize ∧ d.Size ∈ sizeList)
      ∧ (env.LoadImage inFile = none →
          (∀ s ∈ sizeList, s ≤ maxSize →
            env.resizeAndSave s (Sprintf outFileNameFormat s s) = none) →
          multiResizeImage env inFile outFileNameFormat result sizeList maxSize
            = (result ++ registered outFileNameFormat maxSize sizeList, none))
      ∧ (∀ tempDir sel list err, env.TempDir = Except.ok tempDir →
          selection env icnsFile tempDir = Stage.selected sel →
          ConvertIcnsToPng env icnsFile = Outcome.returned list err →
          ∀ d ∈ list, d.Size ≤ sel.maxSize) := by
  refine ⟨?_, multiResizeImage_all_ok env inFile outFileNameFormat result sizeList maxSize, ?_⟩
  · obtain ⟨k, hk⟩ := multiResizeImage_prefix env inFile outFileNameFormat result sizeList
      maxSize
    refine ⟨_, hk, ?_⟩
    intro d hd
    obtain ⟨h1, h2, _⟩ := mem_registered hd
    exact ⟨h1, List.mem_of_mem_take h2⟩
  · intro tempDir sel list err ht hsel hrun d hd
    cases err with
    | some e =>
      rcases ConvertIcnsToPng_shape env icnsFile list (some e) hrun with h | h
      · cases h
      · rw [h] at hd
        cases hd
    | none =>
      obtain ⟨tempDir2, sel2, ht2, hsel2, _, hlist⟩ :=
        ConvertIcnsToPng_success env icnsFile list hrun
      rw [ht] at ht2
      cases ht2
      rw [hsel] at hsel2
      cases hsel2
      rw [hlist] at hd
      have hd2 := (sortBySize_perm _).mem_iff.1 hd
      rcases List.mem_append.1 hd2 with h | h
      · exact selection_result_le env icnsFile tempDir sel hsel d h
      · exact (mem_registered h).1

/-- C3, for the target 1024 with a 512 pixel source: the target is skipped and the call
succeeds. -/
theorem multiResizeImage_no_upsampling_witness :
    (fallbackEnv []).LoadImage "/tmp/t.iconset/ic09.png" = none
      ∧ (∀ s ∈ [1024, 256], s ≤ (512 : Int) →
          (fallbackEnv []).resizeAndSave s (Sprintf "/tmp/t.iconset/icon_%dx%d.png" s s) = none)
      ∧ multiResizeImage (fallbackEnv []) "/tmp/t.iconset/ic09.png"
          "/tmp/t.iconset/icon_%dx%d.png" [⟨"/tmp/t.iconset/ic09.png", 512⟩] [1024, 256] 512
        = ([⟨"/tmp/t.iconset/ic09.png", 512⟩]
            ++ registered "/tmp/t.iconset/icon_%dx%d.png" 512 [1024, 256], none)
      ∧ registered "/tmp/t.iconset/icon_%dx%d.png" 512 [1024, 256]
        = [⟨"/tmp/t.iconset/icon_256x256.png", 256⟩] :=
  ⟨rfl, by decide,
    (multiResizeImage_no_upsampling (fallbackEnv []) "a.icns" "/tmp/t.iconset/ic09.png"
      "/tmp/t.iconset/icon_%dx%d.png" [⟨"/tmp/t.iconset/ic09.png", 512⟩] [1024, 256] 512).2.1
      rfl (by decide),
    by decide⟩

/-- C7: a failure of extraction, of the load of the source image or of any scheduled
resize-and-save unit makes `ConvertIcnsToPng` return a nil list with an error; every pair
it returns is a list without an error or a nil list with an error. -/
theorem ConvertIcnsToPng_fail_fast (env : Env) (inFile : String) :
    (∀ list err, ConvertIcnsToPng env inFile = Outcome.returned list err →
        err = none ∨ list = [])
      ∧ (∀ e, env.TempDir = Except.error e →
          ConvertIcnsToPng env inFile = Outcome.returned [] (some e))
      ∧ (∀ tempDir e, env.TempDir = Except.ok tempDir →
          selection env inFile tempDir = Stage.failed e →
          ConvertIcnsToPng env inFile = Outcome.returned [] (some e))
      ∧ (∀ tempDir e, env.native = true → env.iconutil tempDir inFile = some e →
          selection env inFile tempDir = Stage.failed e)
      ∧ (∀ tempDir e, env.native = true → env.iconutil tempDir inFile = none →
          env.ReadDirContent tempDir = Except.error e →
          selection env inFile tempDir = Stage.failed e)
      ∧ (∀ tempDir e, env.native = false →
          env.ConvertIcnsToPngUsingOpenJpeg inFile tempDir = Except.error e →
          selection env inFile tempDir = Stage.failed e)
      ∧ (∀ tempDir sel e, env.TempDir = Except.ok tempDir →
          selection env inFile tempDir = Stage.selected sel →
          env.LoadImage sel.maxIconPath = some e →
          ConvertIcnsToPng env inFile = Outcome.returned [] (some e))
      ∧ (∀ tempDir sel s e, env.TempDir = Except.ok tempDir →
          selection env inFile tempDir = Stage.selected sel →
          s ∈ sel.sizeList → s ≤ sel.maxSize →
          env.resizeAndSave s (Sprintf (filepathJoin tempDir "icon_%dx%d.png") s s) = some e →
          ∃ e2, ConvertIcnsToPng env inFile = Outcome.returned [] (some e2)) := by
  refine ⟨ConvertIcnsToPng_shape env inFile, ?_, ?_, ?_, ?_, ?_, ?_, ?_⟩
  · intro e ht
    unfold ConvertIcnsToPng
    rw [ht]
  · intro tempDir e ht hsel
    unfold ConvertIcnsToPng
    rw [ht]
    simp only
    rw [hsel]
  · intro tempDir e hn hi
    unfold selection
    simp [hn, hi]
  · intro tempDir e hn hi hr
    unfold selection
    simp [hn, hi, hr]
  · intro tempDir e hn hd
    unfold selection
    simp [hn, hd]
  · intro tempDir sel e ht hsel hl
    rw [ConvertIcnsToPng_reached env inFile tempDir sel ht hsel]
    have hne : sel.sizeList.length ≠ 0 := fun h0 =>
      selection_sizeList_ne_nil env inFile tempDir sel hsel (List.length_eq_zero.1 h0)
    unfold multiResizeImage
    simp [hne, hl]
  · intro tempDir sel s e ht hsel hs hle hfail
    rw [ConvertIcnsToPng_reached env inFile tempDir sel ht hsel]
    cases hm : multiResizeImage env sel.maxIconPath (filepathJoin tempDir "icon_%dx%d.png")
        sel.result sel.sizeList sel.maxSize with
    | mk res err =>
      cases err with
      | some e2 => exact ⟨e2, rfl⟩
      | none =>
        have h2 := (multiResizeImage_success env sel.maxIconPath
          (filepathJoin tempDir "icon_%dx%d.png") sel.result sel.sizeList sel.maxSize
          (by rw [hm])).2 s hs hle
        rw [hfail] at h2
        cases h2

/-- C7, when the save of the 96 pixel image fails: the descriptors registered so far are
dropped and the call returns the error alone. -/
theorem ConvertIcnsToPng_fail_fast_witness :
    failingEnv.TempDir = Except.ok "/tmp/t.iconset"
      ∧ selection failingEnv "a.icns" "/tmp/t.iconset" = Stage.selected only512
      ∧ (96 : Int) ∈ only512.sizeList ∧ (96 : Int) ≤ only512.maxSize
      ∧ failingEnv.resizeAndSave 96
          (Sprintf (filepathJoin "/tmp/t.iconset" "icon_%dx%d.png") 96 96)
          = some "no space left on device"
      ∧ (∃ e2, ConvertIcnsToPng failingEnv "a.icns" = Outcome.returned [] (some e2))
      ∧ (multiResizeImage failingEnv only512.maxIconPath
          (filepathJoin "/tmp/t.iconset" "icon_%dx%d.png") only512.result only512.sizeList
          only512.maxSize).1
        = only512.result ++ [⟨"/tmp/t.iconset/icon_24x24.png", 24⟩,
            ⟨"/tmp/t.iconset/icon_96x96.png", 96⟩] :=
  ⟨rfl, by decide, by decide, by decide, by decide,
    (ConvertIcnsToPng_fail_fast failingEnv "a.icns").2.2.2.2.2.2.2 "/tmp/t.iconset" only512 96
      "no space left on device" rfl (by decide) (by decide) (by decide) (by decide),
    by decide⟩

/-- C5, on the decoder path: when the decoder returns an empty list without an error,
`ConvertIcnsToPng` reads the last element of the empty slice and stops with a run-time
panic; it returns neither a list nor an error. -/
theorem ConvertIcnsToPng_empty_decoder_panics :
    ConvertIcnsToPng (fallbackEnv []) "a.icns" = Outcome.panicked
      ∧ ∀ list err, ConvertIcnsToPng (fallbackEnv []) "a.icns" ≠ Outcome.returned list err := by
  have h : ConvertIcnsToPng (fallbackEnv []) "a.icns" = Outcome.panicked := by decide
  refine ⟨h, ?_⟩
  intro list err
  rw [h]
  exact fun hc => by cases hc

/-- C8: the selection made before the call of `multiResizeImage` (source path, `maxSize`,
target list, and the available descriptors) is the same for every permutation of the
directory listing, and the same for every permutation of a decoder list with pairwise
distinct sizes. -/
theorem selection_order_independent (env : Env) (inFile tempDir : String) :
    (∀ l1 l2 : List String, l1.Perm l2 →
        selection { env with ReadDirContent := fun _ => Except.ok l1 } inFile tempDir
          = selection { env with ReadDirContent := fun _ => Except.ok l2 } inFile tempDir)
      ∧ (∀ d1 d2 : List IconInfo, d1.Perm d2 → (d1.map IconInfo.Size).Nodup →
        selection { env with ConvertIcnsToPngUsingOpenJpeg := fun _ _ => Except.ok d1 }
            inFile tempDir
          = selection { env with ConvertIcnsToPngUsingOpenJpeg := fun _ _ => Except.ok d2 }
            inFile tempDir) := by
  constructor
  · intro l1 l2 h
    have hstep : nativeStep tempDir l1 = nativeStep tempDir l2 := by
      funext st item
      simp only [nativeStep, contains_perm h]
    unfold selection
    simp only [hstep]
  · intro d1 d2 h hn
    have hsort : sortBySize d1 = sortBySize d2 := sortBySize_eq_of_perm h hn
    unfold selection
    simp only [hsort]

/-- C8, for a directory listing with the 16 and the 128 pixel files in both orders, and
for a decoder list with a 1024 and a 16 pixel image in both orders. -/
theorem selection_order_independent_witness :
    (["icon_16x16.png", "icon_128x128.png"].Perm ["icon_128x128.png", "icon_16x16.png"]
      ∧ selection (nativeEnv ["icon_16x16.png", "icon_128x128.png"]) "a.icns" "/tmp/t.iconset"
          = selection (nativeEnv ["icon_128x128.png", "icon_16x16.png"]) "a.icns"
              "/tmp/t.iconset"
      ∧ selection (nativeEnv ["icon_128x128.png", "icon_16x16.png"]) "a.icns" "/tmp/t.iconset"
          = Stage.selected found16and128)
    ∧ ([(⟨"/tmp/t.iconset/big.png", 1024⟩ : IconInfo), ⟨"/tmp/t.iconset/ic04.png", 16⟩].Perm
          [⟨"/tmp/t.iconset/ic04.png", 16⟩, ⟨"/tmp/t.iconset/big.png", 1024⟩]
      ∧ ([(⟨"/tmp/t.iconset/big.png", 1024⟩ : IconInfo),
            ⟨"/tmp/t.iconset/ic04.png", 16⟩].map IconInfo.Size).Nodup
      ∧ selection (fallbackEnv [⟨"/tmp/t.iconset/big.png", 1024⟩,
            ⟨"/tmp/t.iconset/ic04.png", 16⟩]) "a.icns" "/tmp/t.iconset"
          = selection (fallbackEnv [⟨"/tmp/t.iconset/ic04.png", 16⟩,
            ⟨"/tmp/t.iconset/big.png", 1024⟩]) "a.icns" "/tmp/t.iconset"
      ∧ selection (fallbackEnv [⟨"/tmp/t.iconset/ic04.png", 16⟩,
            ⟨"/tmp/t.iconset/big.png", 1024⟩]) "a.icns" "/tmp/t.iconset"
          = Stage.selected with1024) :=
  ⟨⟨List.Perm.swap _ _ _,
      (selection_order_independent (nativeEnv []) "a.icns" "/tmp/t.iconset").1
        ["icon_16x16.png", "icon_128x128.png"] ["icon_128x128.png", "icon_16x16.png"]
        (List.Perm.swap _ _ _),
      by decide⟩,
    ⟨List.Perm.swap _ _ _, by decide,
      (selection_order_independent (fallbackEnv []) "a.icns" "/tmp/t.iconset").2
        [⟨"/tmp/t.iconset/big.png", 1024⟩, ⟨"/tmp/t.iconset/ic04.png", 16⟩]
        [⟨"/tmp/t.iconset/ic04.png", 16⟩, ⟨"/tmp/t.iconset/big.png", 1024⟩]
        (List.Perm.swap _ _ _) (by decide),
      by decide⟩⟩

/-- C1: on every successful run whose extracted images have pairwise distinct sizes, the
returned list holds exactly one descriptor of size `s` for every catalog size `s` that does
not exceed the size of the chosen source. -/
theorem ConvertIcnsToPng_complete (env : Env) (inFile tempDir : String) (sel : Selection)
    (list : List IconInfo)
    (ht : env.TempDir = Except.ok tempDir)
    (hsel : selection env inFile tempDir = Stage.selected sel)
    (hrun : ConvertIcnsToPng env inFile = Outcome.returned list none)
    (hdistinct : (sel.result.map IconInfo.Size).Nodup)
    (s : Int) (hs : s ∈ catalogSizes) (hle : s ≤ sel.maxSize) :
    (list.filter (fun d => decide (d.Size = s))).length = 1 := by
  have hperm := returned_sizes_perm env inFile tempDir sel list ht hsel hrun
  have hcount : (list.filter (fun d => decide (d.Size = s))).length
      = List.count s (list.map IconInfo.Size) := by
    rw [← List.countP_eq_length_filter, List.count, List.countP_map]
    apply List.countP_congr
    intro d _
    simp
  rw [hcount, hperm.count_eq, List.count_append]
  have htn := selection_targets_nodup env inFile tempDir sel hsel
  have htm := selection_targets_mem env inFile tempDir sel hsel s
  by_cases hR : s ∈ sel.result.map IconInfo.Size
  · have hnot : s ∉ sel.sizeList.filter (fun s => decide (s ≤ sel.maxSize)) := by
      intro hmem
      rcases htm.1 (List.mem_filter.1 hmem).1 with h | h | h
      · exact (catalogSizes_not_aux hs).1 h
      · exact (catalogSizes_not_aux hs).2 h
      · exact h.2 hR
    rw [List.count_eq_one_of_mem hdistinct hR, List.count_eq_zero_of_not_mem hnot]
  · have hin : s ∈ sel.sizeList.filter (fun s => decide (s ≤ sel.maxSize)) :=
      List.mem_filter.2 ⟨htm.2 (Or.inr (Or.inr ⟨hs, hR⟩)), by simpa using hle⟩
    rw [List.count_eq_zero_of_not_mem hR, List.count_eq_one_of_mem (htn.filter _) hin]

/-- C1, on the `iconutil` path with the 16 and the 128 pixel files: exactly one descriptor of
the catalog size 64. -/
theorem ConvertIcnsToPng_complete_witness :
    (nativeEnv ["icon_128x128.png", "icon_16x16.png"]).TempDir = Except.ok "/tmp/t.iconset"
      ∧ selection (nativeEnv ["icon_128x128.png", "icon_16x16.png"]) "a.icns" "/tmp/t.iconset"
          = Stage.selected found16and128
      ∧ ConvertIcnsToPng (nativeEnv ["icon_128x128.png", "icon_16x16.png"]) "a.icns"
          = Outcome.returned found16and128List none
      ∧ (found16and128.result.map IconInfo.Size).Nodup
      ∧ (64 : Int) ∈ catalogSizes ∧ (64 : Int) ≤ found16and128.maxSize
      ∧ (found16and128List.filter (fun d => decide (d.Size = 64))).length = 1 :=
  ⟨rfl, by decide, by decide, by decide, by decide, by decide,
    ConvertIcnsToPng_complete (nativeEnv ["icon_128x128.png", "icon_16x16.png"]) "a.icns"
      "/tmp/t.iconset" found16and128 found16and128List rfl (by decide) (by decide) (by decide)
      64 (by decide) (by decide)⟩

/-- C2 as stated fails: a decoder result with the pairwise distinct sizes 24 and 512 puts
24 in the target list although it is available, and the returned list holds two descriptors
of size 24. -/
theorem ConvertIcnsToPng_duplicate_aux_size :
    (decoded24and512.map IconInfo.Size).Nodup
      ∧ selection (fallbackEnv decoded24and512) "a.icns" "/tmp/t.iconset"
          = Stage.selected selected24and512
      ∧ (24 : Int) ∈ selected24and512.sizeList
      ∧ (24 : Int) ∈ selected24and512.result.map IconInfo.Size
      ∧ ConvertIcnsToPng (fallbackEnv decoded24and512) "a.icns"
          = Outcome.returned returned24and512 none
      ∧ ¬ (returned24and512.map IconInfo.Size).Nodup
      ∧ (returned24and512.filter (fun d => decide (d.Size = 24))).length = 2 := by
  refine ⟨by decide, by decide, by decide, by decide, by decide, by decide, by decide⟩

/-- C2, amended: on every successful run whose extracted descriptors have pairwise distinct
sizes, none of them 24 or 96, the target list handed to `multiResizeImage` holds no size
that is already available and the returned list holds at most one descriptor per size. -/
theorem ConvertIcnsToPng_no_duplicate_sizes (env : Env) (inFile tempDir : String)
    (sel : Selection) (list : List IconInfo)
    (ht : env.TempDir = Except.ok tempDir)
    (hsel : selection env inFile tempDir = Stage.selected sel)
    (hrun : ConvertIcnsToPng env inFile = Outcome.returned list none)
    (hdistinct : (sel.result.map IconInfo.Size).Nodup)
    (h24 : (24 : Int) ∉ sel.result.map IconInfo.Size)
    (h96 : (96 : Int) ∉ sel.result.map IconInfo.Size) :
    (∀ s ∈ sel.sizeList, s ∉ sel.result.map IconInfo.Size)
      ∧ (list.map IconInfo.Size).Nodup := by
  constructor
  · intro s hs hR
    rcases (selection_targets_mem env inFile tempDir sel hsel s).1 hs with h | h | h
    · exact h24 (h ▸ hR)
    · exact h96 (h ▸ hR)
    · exact h.2 hR
  · exact ((returned_sizes_perm env inFile tempDir sel list ht hsel hrun).nodup_iff).2
      (merged_sizes_nodup env inFile tempDir sel hsel hdistinct h24 h96)

/-- C2 amended, on the decoder path with a 1024 and a 16 pixel image. -/
theorem ConvertIcnsToPng_no_duplicate_sizes_witness :
    (fallbackEnv with1024.result).TempDir = Except.ok "/tmp/t.iconset"
      ∧ selection (fallbackEnv with1024.result) "a.icns" "/tmp/t.iconset"
          = Stage.selected with1024
      ∧ ConvertIcnsToPng (fallbackEnv with1024.result) "a.icns"
          = Outcome.returned (sortBySize (with1024.result
              ++ registered "/tmp/t.iconset/icon_%dx%d.png" 1024 with1024.sizeList)) none
      ∧ (with1024.result.map IconInfo.Size).Nodup
      ∧ (24 : Int) ∉ with1024.result.map IconInfo.Size
      ∧ (96 : Int) ∉ with1024.result.map IconInfo.Size
      ∧ (∀ s ∈ with1024.sizeList, s ∉ with1024.result.map IconInfo.Size)
      ∧ ((sortBySize (with1024.result
          ++ registered "/tmp/t.iconset/icon_%dx%d.png" 1024 with1024.sizeList)).map
            IconInfo.Size).Nodup :=
  ⟨rfl, by decide, by decide, by decide, by decide, by decide,
    ConvertIcnsToPng_no_duplicate_sizes (fallbackEnv with1024.result) "a.icns" "/tmp/t.iconset"
      with1024 _ rfl (by decide) (by decide) (by decide) (by decide) (by decide)⟩

/-- C6: when extraction makes a set of catalog sizes available, the source loads
and every resize succeeds, the target list is 24 and 96 followed by exactly the catalog sizes
that are not available, the call succeeds, and the sizes of the returned list are exactly
the ascending list of the nine sizes that do not exceed the maximum; with 512 available the
list has the nine sizes 16, 24, 32, 48, 64, 96, 128, 256, 512. -/
theorem ConvertIcnsToPng_exact_sizes (env : Env) (inFile tempDir : String) (sel : Selection)
    (ht : env.TempDir = Except.ok tempDir)
    (hsel : selection env inFile tempDir = Stage.selected sel)
    (hcat : ∀ d ∈ sel.result, d.Size ∈ catalogSizes)
    (hdistinct : (sel.result.map IconInfo.Size).Nodup)
    (hload : env.LoadImage sel.maxIconPath = none)
    (hok : ∀ s ∈ sel.sizeList, s ≤ sel.maxSize →
      env.resizeAndSave s (Sprintf (filepathJoin tempDir "icon_%dx%d.png") s s) = none) :
    sel.sizeList
        = [24, 96] ++ catalogSizes.filter (fun s => decide (s ∉ sel.result.map IconInfo.Size))
      ∧ ConvertIcnsToPng env inFile
        = Outcome.returned (sortBySize (sel.result
            ++ registered (filepathJoin tempDir "icon_%dx%d.png") sel.maxSize sel.sizeList))
          none
      ∧ (sortBySize (sel.result
            ++ registered (filepathJoin tempDir "icon_%dx%d.png") sel.maxSize
              sel.sizeList)).map IconInfo.Size
          = [16, 24, 32, 48, 64, 96, 128, 256, 512].filter (fun s => decide (s ≤ sel.maxSize))
      ∧ ((512 : Int) ∈ sel.result.map IconInfo.Size →
          (sortBySize (sel.result
            ++ registered (filepathJoin tempDir "icon_%dx%d.png") sel.maxSize
              sel.sizeList)).map IconInfo.Size
            = [16, 24, 32, 48, 64, 96, 128, 256, 512]
          ∧ (sortBySize (sel.result
            ++ registered (filepathJoin tempDir "icon_%dx%d.png") sel.maxSize
              sel.sizeList)).length = 9) := by
  have hR24 : (24 : Int) ∉ sel.result.map IconInfo.Size := by
    intro hmem
    obtain ⟨d, hd, hds⟩ := List.mem_map.1 hmem
    exact (catalogSizes_not_aux (hcat d hd)).1 hds
  have hR96 : (96 : Int) ∉ sel.result.map IconInfo.Size := by
    intro hmem
    obtain ⟨d, hd, hds⟩ := List.mem_map.1 hmem
    exact (catalogSizes_not_aux (hcat d hd)).2 hds
  have hsizes : (sortBySize (sel.result
        ++ registered (filepathJoin tempDir "icon_%dx%d.png") sel.maxSize
          sel.sizeList)).map IconInfo.Size
      = [16, 24, 32, 48, 64, 96, 128, 256, 512].filter
          (fun s => decide (s ≤ sel.maxSize)) := by
    have hperm1 : ((sortBySize (sel.result
          ++ registered (filepathJoin tempDir "icon_%dx%d.png") sel.maxSize
            sel.sizeList)).map IconInfo.Size).Perm
        (sel.result.map IconInfo.Size
          ++ sel.sizeList.filter (fun s => decide (s ≤ sel.maxSize))) := by
      rw [← registered_sizes (filepathJoin tempDir "icon_%dx%d.png"), ← List.map_append]
      exact (sortBySize_perm _).map IconInfo.Size
    have hnd1 := merged_sizes_nodup env inFile tempDir sel hsel hdistinct hR24 hR96
    have hnd2 : ([16, 24, 32, 48, 64, 96, 128, 256, 512].filter
        (fun s => decide (s ≤ sel.maxSize))).Nodup := by
      have hnine : ([16, 24, 32, 48, 64, 96, 128, 256, 512] : List Int).Nodup := by decide
      exact hnine.filter _
    have hperm2 : (sel.result.map IconInfo.Size
          ++ sel.sizeList.filter (fun s => decide (s ≤ sel.maxSize))).Perm
        ([16, 24, 32, 48, 64, 96, 128, 256, 512].filter
          (fun s => decide (s ≤ sel.maxSize))) := by
      rw [List.perm_ext_iff_of_nodup hnd1 hnd2]
      intro a
      rw [List.mem_append, List.mem_filter, List.mem_filter, mem_nine_iff,
        selection_targets_mem env inFile tempDir sel hsel a]
      simp only [decide_eq_true_eq]
      constructor
      · rintro (h | h)
        · obtain ⟨d, hd, hds⟩ := List.mem_map.1 h
          refine ⟨Or.inr (Or.inr (hds ▸ hcat d hd)), ?_⟩
          rw [← hds]
          exact selection_result_le env inFile tempDir sel hsel d hd
        · rcases h with ⟨h1 | h1 | h1, h2⟩
          · exact ⟨Or.inl h1, h2⟩
          · exact ⟨Or.inr (Or.inl h1), h2⟩
          · exact ⟨Or.inr (Or.inr h1.1), h2⟩
      · rintro ⟨h1 | h1 | h1, h2⟩
        · exact Or.inr ⟨Or.inl h1, h2⟩
        · exact Or.inr ⟨Or.inr (Or.inl h1), h2⟩
        · by_cases hR : a ∈ sel.result.map IconInfo.Size
          · exact Or.inl hR
          · exact Or.inr ⟨Or.inr (Or.inr ⟨h1, hR⟩), h2⟩
    have hs1 : ((sortBySize (sel.result
          ++ registered (filepathJoin tempDir "icon_%dx%d.png") sel.maxSize
            sel.sizeList)).map IconInfo.Size).Sorted (fun a b => a ≤ b) :=
      List.pairwise_map.2 (sortBySize_sorted _)
    have hs2 : ([16, 24, 32, 48, 64, 96, 128, 256, 512].filter
        (fun s => decide (s ≤ sel.maxSize))).Sorted (fun a b => a ≤ b) :=
      (List.Pairwise.sublist (List.filter_sublist _) nine_sorted).imp (fun hab => le_of_lt hab)
    exact List.eq_of_perm_of_sorted (hperm1.trans hperm2) hs1 hs2
  refine ⟨?_, ?_, hsizes, ?_⟩
  · rw [(selection_facts env inFile tempDir sel hsel).2.2.1]
    congr 1
    apply List.filter_congr
    intro a _
    cases hh : hasSize sel.result a with
    | false =>
      have hnot : a ∉ sel.result.map IconInfo.Size := by
        intro hm
        rw [← hasSize_iff, hh] at hm
        cases hm
      simp [hnot]
    | true =>
      have hin : a ∈ sel.result.map IconInfo.Size := (hasSize_iff _ _).1 hh
      simp [hin]
  · rw [ConvertIcnsToPng_reached env inFile tempDir sel ht hsel,
      multiResizeImage_all_ok env sel.maxIconPath _ sel.result sel.sizeList sel.maxSize
        hload hok]
  · intro h512
    obtain ⟨d, hd, hds⟩ := List.mem_map.1 h512
    have hM : (512 : Int) ≤ sel.maxSize := by
      rw [← hds]
      exact selection_result_le env inFile tempDir sel hsel d hd
    have hall : [16, 24, 32, 48, 64, 96, 128, 256, 512].filter
        (fun s => decide (s ≤ sel.maxSize)) = [16, 24, 32, 48, 64, 96, 128, 256, 512] := by
      rw [List.filter_eq_self]
      intro a ha
      simp only [List.mem_cons, List.mem_singleton, List.not_mem_nil, or_false] at ha
      simp only [decide_eq_true_eq]
      omega
    have hfinal := hsizes.trans hall
    refine ⟨hfinal, ?_⟩
    have hlen := congrArg List.length hfinal
    simpa using hlen

/-- C6, on the decoder path with the 512 pixel image alone: eight targets and nine returned
descriptors. -/
theorem ConvertIcnsToPng_exact_sizes_witness :
    (fallbackEnv only512.result).TempDir = Except.ok "/tmp/t.iconset"
      ∧ selection (fallbackEnv only512.result) "a.icns" "/tmp/t.iconset"
          = Stage.selected only512
      ∧ only512.result ≠ []
      ∧ (∀ d ∈ only512.result, d.Size ∈ catalogSizes)
      ∧ (only512.result.map IconInfo.Size).Nodup
      ∧ only512.sizeList = [24, 96, 16, 32, 48, 64, 128, 256]
      ∧ ConvertIcnsToPng (fallbackEnv only512.result) "a.icns"
          = Outcome.returned only512List none
      ∧ only512List.map IconInfo.Size = [16, 24, 32, 48, 64, 96, 128, 256, 512]
      ∧ ((sortBySize (only512.result
            ++ registered (filepathJoin "/tmp/t.iconset" "icon_%dx%d.png") only512.maxSize
              only512.sizeList)).map IconInfo.Size
            = [16, 24, 32, 48, 64, 96, 128, 256, 512]
          ∧ (sortBySize (only512.result
            ++ registered (filepathJoin "/tmp/t.iconset" "icon_%dx%d.png") only512.maxSize
              only512.sizeList)).length = 9) :=
  ⟨rfl, by decide, by decide, by decide, by decide, rfl, by decide, by decide,
    (ConvertIcnsToPng_exact_sizes (fallbackEnv only512.result) "a.icns" "/tmp/t.iconset"
      only512 rfl (by decide) (by decide) (by decide) rfl
      (fun _ _ _ => rfl)).2.2.2 (by decide)⟩

end Icons
